import Mathlib

/-!
Verification of the HX711 load-cell driver
(src/lib/HX711_GSR/HX711_GSR.{h,cpp} and the sketch loadCell.cpp).

Shallow embedding conventions:
* machine integers are modeled as `Nat`/`Int`, with explicit `% 2^32`
  wrapping exactly where the C code performs a conversion whose wrapping
  matters (the byte assembly in `getRawValue`);
* `double` arithmetic is modeled exactly over `ℚ` (all quantities involved
  are integers or tenths, far inside the exactly-representable range);
* the integer-division-by-zero fault of C is modeled by `Option`
  (`none` = fault);
* raw samples delivered by the ADC are modeled by a function
  `f : Nat → Int` giving the value returned by the (k+1)-th executed
  `getRawValue` call.
-/

namespace LoadCell

/-! ### Protocol driver (HX711_GSR.cpp lines 19-65) -/

/-- Trace of `n` HIGH/LOW clock pulse pairs on `_pinPD_SCK`
(`digitalWrite(HIGH); delay; digitalWrite(LOW); delay` per iteration);
`true` = HIGH, `false` = LOW. -/
def clockPulses : Nat → List Bool
  | 0 => []
  | n + 1 => true :: false :: clockPulses n

/-- The function readByte (HX711_GSR.cpp 19-35): clocks out 8 bits from the
data line.  `bits i` is the level read on `dataPin` at the i-th clock pulse
(`true` = 1); `lsbFirst` mirrors the `bitOrder == LSBFIRST` test, so
`MSBFIRST` corresponds to `lsbFirst = false` and places bit `i` at
position `7 - i`. -/
def readByte (bits : Nat → Bool) (lsbFirst : Bool) : Nat :=
  (List.range 8).foldl
    (fun value i =>
      value ||| ((if bits i then 1 else 0) <<< (if lsbFirst then i else 7 - i)))
    0

/-- Every value assembled by readByte fits in a byte, as the C `uint8_t`
return type records. -/
theorem readByte_lt (bits : Nat → Bool) (lsbFirst : Bool) :
    readByte bits lsbFirst < 256 := by
  have h : List.range 8 = [0, 1, 2, 3, 4, 5, 6, 7] := rfl
  unfold readByte
  rw [h]
  simp only [List.foldl]
  have hterm : ∀ i : Nat, i < 8 →
      ((if bits i then 1 else 0) <<< (if lsbFirst then i else 7 - i)) < 256 := by
    intro i hi
    rw [Nat.shiftLeft_eq]
    have hexp : (if lsbFirst then i else 7 - i) ≤ 7 := by
      split <;> omega
    have : (2 : Nat) ^ (if lsbFirst then i else 7 - i) ≤ 2 ^ 7 :=
      Nat.pow_le_pow_right (by omega) hexp
    split <;> omega
  have h256 : (256 : Nat) = 2 ^ 8 := by norm_num
  rw [h256]
  refine Nat.or_lt_two_pow ?_ (by rw [← h256]; exact hterm 7 (by omega))
  refine Nat.or_lt_two_pow ?_ (by rw [← h256]; exact hterm 6 (by omega))
  refine Nat.or_lt_two_pow ?_ (by rw [← h256]; exact hterm 5 (by omega))
  refine Nat.or_lt_two_pow ?_ (by rw [← h256]; exact hterm 4 (by omega))
  refine Nat.or_lt_two_pow ?_ (by rw [← h256]; exact hterm 3 (by omega))
  refine Nat.or_lt_two_pow ?_ (by rw [← h256]; exact hterm 2 (by omega))
  refine Nat.or_lt_two_pow ?_ (by rw [← h256]; exact hterm 1 (by omega))
  refine Nat.or_lt_two_pow (by norm_num) (by rw [← h256]; exact hterm 0 (by omega))

/-- Two's-complement reinterpretation of an unsigned 32-bit quantity as a
signed one: the implementation-defined `uint32_t` → `int32_t` conversion
performed by the assignment back into `value` in HX711_GSR.cpp line 63. -/
def toInt32 (n : Nat) : Int :=
  if n % 4294967296 < 2147483648 then ((n % 4294967296 : Nat) : Int)
  else ((n % 4294967296 : Nat) : Int) - 4294967296

/-- The C cast `(int8_t)bytes[2]` of HX711_GSR.cpp line 62: reinterpret a
byte value as a signed 8-bit integer (sign extension). -/
def int8Cast (b : Nat) : Int :=
  if b % 256 < 128 then ((b % 256 : Nat) : Int) else ((b % 256 : Nat) : Int) - 256

/-- The `uint32_t` image of a signed 32-bit value (conversion modulo 2^32),
as performed by the usual arithmetic conversions before the `|` in
HX711_GSR.cpp line 63. -/
def toUInt32 (v : Int) : Nat := (v % (4294967296 : Int)).toNat

/-- Byte assembly of getRawValue (HX711_GSR.cpp lines 61-63):
`value = (int8_t)bytes[2]; value = value << 16 | (uint32_t)bytes[1] << 8 | (uint32_t)bytes[0];`
`b2` is the first byte read (the most significant, stored in `bytes[2]`),
then `b1`, `b0`.  The signed left shift is modeled as the shift of the
32-bit pattern of `value`. -/
def getRawValue (b2 b1 b0 : Nat) : Int :=
  toInt32 ((toUInt32 (int8Cast b2) <<< 16) % 4294967296 ||| b1 <<< 8 ||| b0)

/-- The full read of getRawValue (HX711_GSR.cpp lines 49-50): three calls of
readByte with `MSBFIRST`, stored into `bytes[2 - i]`, so the first 8 data
bits form the most significant byte. -/
def getRawValueFromBits (data : Nat → Bool) : Int :=
  getRawValue (readByte (fun i => data i) false)
    (readByte (fun i => data (8 + i)) false)
    (readByte (fun i => data (16 + i)) false)

/-- Helper: closed form of the byte assembly. -/
theorem getRawValue_eq (b2 b1 b0 : Nat) (h2 : b2 < 256) (h1 : b1 < 256)
    (h0 : b0 < 256) :
    getRawValue b2 b1 b0 = int8Cast b2 * 65536 + b1 * 256 + b0 := by
  have e2 : b2 % 256 = b2 := Nat.mod_eq_of_lt h2
  have hlow : b1 <<< 8 ||| b0 = b1 * 256 + b0 := by
    have h8 : b1 <<< 8 = 2 ^ 8 * b1 := by
      rw [Nat.shiftLeft_eq]
      ring
    rw [h8, ← Nat.mul_add_lt_is_or (show b0 < 2 ^ 8 by omega) b1]
    ring
  by_cases hb : b2 < 128
  · have hcast : int8Cast b2 = (b2 : Nat) := by
      simp only [int8Cast, e2]
      rw [if_pos hb]
    have hU : toUInt32 ((b2 : Nat) : Int) = b2 := by
      simp only [toUInt32]
      omega
    have hA : (toUInt32 (int8Cast b2) <<< 16) % 4294967296 = 65536 * b2 := by
      rw [hcast, hU, Nat.shiftLeft_eq]
      have : b2 * 2 ^ 16 = 65536 * b2 := by ring
      rw [this]
      omega
    have hN : (toUInt32 (int8Cast b2) <<< 16) % 4294967296 ||| b1 <<< 8 ||| b0
        = 65536 * b2 + (b1 * 256 + b0) := by
      rw [Nat.lor_assoc, hlow, hA]
      have h16 : (65536 : Nat) = 2 ^ 16 := by norm_num
      rw [h16]
      exact (Nat.mul_add_lt_is_or (by omega) b2).symm
    unfold getRawValue
    rw [hN, hcast]
    simp only [toInt32]
    rw [if_pos (by omega)]
    push_cast
    omega
  · have hcast : int8Cast b2 = ((b2 : Nat) : Int) - 256 := by
      simp only [int8Cast, e2]
      rw [if_neg (by omega)]
    have hU : toUInt32 (((b2 : Nat) : Int) - 256) = b2 + 4294967040 := by
      simp only [toUInt32]
      omega
    have hA : (toUInt32 (int8Cast b2) <<< 16) % 4294967296
        = 65536 * (b2 + 65280) := by
      rw [hcast, hU, Nat.shiftLeft_eq]
      have : (b2 + 4294967040) * 2 ^ 16 = (b2 + 65280) * 65536 + 65535 * 4294967296 := by
        ring
      rw [this]
      omega
    have hN : (toUInt32 (int8Cast b2) <<< 16) % 4294967296 ||| b1 <<< 8 ||| b0
        = 65536 * (b2 + 65280) + (b1 * 256 + b0) := by
      rw [Nat.lor_assoc, hlow, hA]
      have h16 : (65536 : Nat) = 2 ^ 16 := by norm_num
      rw [h16]
      exact (Nat.mul_add_lt_is_or (by omega) (b2 + 65280)).symm
    unfold getRawValue
    rw [hN, hcast]
    simp only [toInt32]
    rw [if_neg (by omega)]
    push_cast
    omega

/-- C1: for every 3-byte sequence read MSB-first, getRawValue assembles the
sign-extension of the first byte shifted left 16, combined with the second
byte shifted left 8 and the third byte; bytes `[0x7F, 0xFF, 0xFF]` give
8388607, bytes `[0x80, 0x00, 0x00]` give -8388608, and the result always
lies in `[-2^23, 2^23 - 1]`. -/
theorem getRawValue_spec (b2 b1 b0 : Nat) (h2 : b2 < 256) (h1 : b1 < 256)
    (h0 : b0 < 256) :
    getRawValue b2 b1 b0 = int8Cast b2 * 65536 + b1 * 256 + b0 ∧
    getRawValue 0x7F 0xFF 0xFF = 8388607 ∧
    getRawValue 0x80 0x00 0x00 = -8388608 ∧
    -(2 ^ 23) ≤ getRawValue b2 b1 b0 ∧ getRawValue b2 b1 b0 ≤ 2 ^ 23 - 1 := by
  have heq := getRawValue_eq b2 b1 b0 h2 h1 h0
  have hbnd : -128 ≤ int8Cast b2 ∧ int8Cast b2 ≤ 127 := by
    simp only [int8Cast]
    split <;> omega
  refine ⟨heq, by decide, by decide, ?_, ?_⟩ <;>
    · rw [heq]
      norm_num
      omega

/-- Witness for C1 at concrete bytes. -/
theorem getRawValue_spec_witness :
    getRawValue 0x12 0x34 0x56 = int8Cast 0x12 * 65536 + 0x34 * 256 + 0x56 ∧
    getRawValue 0x7F 0xFF 0xFF = 8388607 ∧
    getRawValue 0x80 0x00 0x00 = -8388608 ∧
    -(2 ^ 23) ≤ getRawValue 0x12 0x34 0x56 ∧
    getRawValue 0x12 0x34 0x56 ≤ 2 ^ 23 - 1 :=
  getRawValue_spec 0x12 0x34 0x56 (by decide) (by decide) (by decide)

/-! ### Sampling layer: getAverageValue (HX711_GSR.cpp lines 124-138) -/

/-- The accumulation performed by the `do { ... } while (i < nbr)` loop of
getAverageValue (HX711_GSR.cpp 129-136), at the granularity of the
iterations that take a sample (the `millis() % 150` test only delays
iterations in which nothing is accumulated).  `r` counts the sample-taking
iterations still to run after the current one: a do-while body runs once
even when `nbr = 0`, so the loop is entered with `r = nbr - 1`. -/
def gavGo (f : Nat → Int) (i : Nat) (v : Int) : Nat → Int
  | 0 => v + f i
  | r + 1 => gavGo f (i + 1) (v + f i) r

/-- The value of `v` when the do-while loop of getAverageValue exits. -/
def gavSum (f : Nat → Int) (nbr : Nat) : Int := gavGo f 0 0 (nbr - 1)

/-- C `int32_t` division `a / b`: truncating; a zero divisor is a fault,
modeled as `none`. -/
def intDiv (a b : Int) : Option Int :=
  if b = 0 then none else some (a.tdiv b)

/-- getAverageValue (HX711_GSR.cpp 124-138): accumulate, then `return v / nbr`. -/
def getAverageValue (f : Nat → Int) (nbr : Nat) : Option Int :=
  intDiv (gavSum f nbr) nbr

/-- The averaged value in the non-faulting case. -/
def avgValue (f : Nat → Int) (nbr : Nat) : Int := (gavSum f nbr).tdiv nbr

/-- Helper: for a positive sample count the loop exits with the plain sum of
the first `nbr` samples. -/
theorem gavGo_spec (f : Nat → Int) :
    ∀ r i v, gavGo f i v r = v + ∑ j ∈ Finset.range (r + 1), f (i + j) := by
  intro r
  induction r with
  | zero =>
    intro i v
    simp [gavGo]
  | succ r ih =>
    intro i v
    rw [gavGo, ih]
    have hr : ∑ j ∈ Finset.range (r + 1 + 1), f (i + j)
        = (∑ j ∈ Finset.range (r + 1), f (i + (j + 1))) + f (i + 0) :=
      Finset.sum_range_succ' (fun j => f (i + j)) (r + 1)
    have hsum : (∑ j ∈ Finset.range (r + 1), f (i + (j + 1)))
        = ∑ j ∈ Finset.range (r + 1), f (i + 1 + j) :=
      Finset.sum_congr rfl (fun j _ => by rw [show i + (j + 1) = i + 1 + j by omega])
    rw [hr, hsum]
    simp only [Nat.add_zero]
    abel

/-- Helper: the loop sum equals the sum of the first `nbr` samples. -/
theorem gavSum_spec (f : Nat → Int) (nbr : Nat) (h : 1 ≤ nbr) :
    gavSum f nbr = ∑ j ∈ Finset.range nbr, f j := by
  unfold gavSum
  rw [gavGo_spec]
  have : nbr - 1 + 1 = nbr := by omega
  rw [this]
  simp

/-- Helper: for a positive count getAverageValue does not fault. -/
theorem getAverageValue_eq_some (f : Nat → Int) (nbr : Nat) (h : nbr ≠ 0) :
    getAverageValue f nbr = some (avgValue f nbr) := by
  unfold getAverageValue intDiv avgValue
  rw [if_neg (by exact_mod_cast h)]

/-- C3: for every count between 1 and 255 and every sequence of count raw
samples (each in the 24-bit range), getAverageValue returns the truncating
integer mean of exactly count samples. -/
theorem getAverageValue_spec (f : Nat → Int) (nbr : Nat) (h1 : 1 ≤ nbr)
    (h255 : nbr ≤ 255)
    (hrange : ∀ i, i < nbr → -(2 ^ 23) ≤ f i ∧ f i ≤ 2 ^ 23 - 1) :
    getAverageValue f nbr = some ((∑ j ∈ Finset.range nbr, f j).tdiv nbr) := by
  rw [getAverageValue_eq_some f nbr (by omega)]
  unfold avgValue
  rw [gavSum_spec f nbr h1]

/-- Witness for C3: the sample sequence `[100, 102, 101, 101]` with count 4
averages to 101. -/
theorem getAverageValue_spec_witness :
    getAverageValue
      (fun i => match i with | 0 => 100 | 1 => 102 | 2 => 101 | _ => 101) 4
      = some ((∑ j ∈ Finset.range 4,
          (fun i => match i with | 0 => 100 | 1 => 102 | 2 => 101 | _ => (101 : Int)) j).tdiv 4) ∧
    ((∑ j ∈ Finset.range 4,
        (fun i => match i with | 0 => 100 | 1 => 102 | 2 => 101 | _ => (101 : Int)) j).tdiv 4) = 101 :=
  ⟨getAverageValue_spec _ 4 (by omega) (by omega)
      (by intro i hi; interval_cases i <;> norm_num),
    by decide⟩

/-- C4 counterexample: getAverageValue does not reject `nbr = 0`; the
do-while body still runs once and the function reaches `v / nbr` with a zero
divisor — the modeled division fault — instead of rejecting the input
before the division. -/
theorem getAverageValue_zero_cex :
    gavSum (fun _ => 100) 0 = 100 ∧
    getAverageValue (fun _ => 100) 0 = none := by
  constructor <;> decide

/-- C4 (amended): getAverageValue performs the division `v / nbr`
unconditionally; with `nbr = 0` the do-while body executes once (summing one
sample) and the division is executed with a zero divisor, a fault. -/
theorem getAverageValue_zero_fault (f : Nat → Int) :
    gavSum f 0 = f 0 ∧ getAverageValue f 0 = none :=
  ⟨by simp [gavSum, gavGo], rfl⟩

/-! ### Channel/gain selection (HX711_GSR.h line 16, HX711_GSR.cpp lines 52-59) -/

/-- The enum class `CHN_GAIN { NO_CHN, CHN_A_128, CHN_B_32, CHN_A_64 }`. -/
inductive CHN_GAIN where
  | NO_CHN
  | CHN_A_128
  | CHN_B_32
  | CHN_A_64
deriving DecidableEq, Repr

/-- The C cast `(uint8_t)_chn_gain` (HX711_GSR.cpp line 53): the underlying
enum value, 0 to 3 in declaration order. -/
def chnGainCode : CHN_GAIN → Nat
  | .NO_CHN => 0
  | .CHN_A_128 => 1
  | .CHN_B_32 => 2
  | .CHN_A_64 => 3

/-- Clock trace of one readByte call: 8 HIGH/LOW pulse pairs. -/
def readByteTrace : List Bool := clockPulses 8

/-- Clock trace of one getRawValue call: three bytes are clocked out
(HX711_GSR.cpp 49-50), then the channel/gain selection loop (lines 52-59)
appends one HIGH/LOW pulse per iteration, iterating `(uint8_t)_chn_gain`
times. -/
def getRawValueTrace (cg : CHN_GAIN) : List Bool :=
  readByteTrace ++ readByteTrace ++ readByteTrace ++ clockPulses (chnGainCode cg)

/-- C9: after the 24-bit read, getRawValue appends exactly N extra clock
pulses, where N is the integer code of the selected CHN_GAIN variant:
0 for NO_CHN, 1 for CHN_A_128, 2 for CHN_B_32, 3 for CHN_A_64. -/
theorem getRawValueTrace_spec (cg : CHN_GAIN) :
    getRawValueTrace cg
      = (readByteTrace ++ readByteTrace ++ readByteTrace)
          ++ clockPulses (chnGainCode cg) ∧
    (clockPulses (chnGainCode cg)).count true = chnGainCode cg ∧
    chnGainCode .NO_CHN = 0 ∧ chnGainCode .CHN_A_128 = 1 ∧
    chnGainCode .CHN_B_32 = 2 ∧ chnGainCode .CHN_A_64 = 3 := by
  cases cg <;> exact ⟨by decide, by decide, rfl, rfl, rfl, rfl⟩

/-! ### Calibration engine (HX711_GSR.cpp lines 76-170, HX711_GSR.h 52-61) -/

/-- The mutable fields of class HX711_GSR (HX711_GSR.h lines 52-61; the
leading underscore of the C field names is dropped).  `double` fields are
modeled over ℚ. -/
structure ScaleState where
  gramsMaxLoad : Int
  chn_gain : CHN_GAIN
  v0 : Int
  vref : Int
  gramsRefWeight : Int
  b : ℚ
  m : ℚ
deriving DecidableEq, Repr

/-- Construction-time state (HX711_GSR.h 21-29 and 52-61): `_v0 = 0`,
`_vref = 0`, `_gramsRefWeight = -1` (sentinel), `_b = _m = 0`,
`_chn_gain = CHN_A_128`; the sketch constructs the scale with
`maxLoad = 1000` (loadCell.cpp lines 43, 48). -/
def initialState : ScaleState :=
  { gramsMaxLoad := 1000
  , chn_gain := .CHN_A_128
  , v0 := 0
  , vref := 0
  , gramsRefWeight := -1
  , b := 0
  , m := 0 }

/-- HX711_GSR::set_wref (HX711_GSR.cpp 91-95). -/
def set_wref (st : ScaleState) (gramsRefWeight : Int) : ScaleState :=
  { st with gramsRefWeight := gramsRefWeight }

/-- HX711_GSR::calculateCoefficients (HX711_GSR.cpp 97-101):
`_m = (double)_gramsRefWeight / (double)(_vref - _v0); _b = -_m * (double)_v0;`. -/
def calculateCoefficients (st : ScaleState) : ScaleState :=
  let m : ℚ := (st.gramsRefWeight : ℚ) / ((st.vref - st.v0 : Int) : ℚ)
  { st with m := m, b := -m * (st.v0 : ℚ) }

/-- The state update performed by HX711_GSR::calibrate (HX711_GSR.cpp
155-157) once the averaged value `vref` is known:
`_vref = ...; _m = (double)_gramsRefWeight / double(_vref - _v0);
_b = -_gramsRefWeight * (double)_v0 / (double)(_vref - _v0);`. -/
def calibrateUpdate (st : ScaleState) (vref : Int) : ScaleState :=
  { st with
    vref := vref,
    m := (st.gramsRefWeight : ℚ) / ((vref - st.v0 : Int) : ℚ),
    b := -(st.gramsRefWeight : ℚ) * (st.v0 : ℚ) / ((vref - st.v0 : Int) : ℚ) }

/-- HX711_GSR::calibrate (HX711_GSR.cpp 153-159): average `nbr` readings
into `_vref`, recompute `_m` and `_b`, return `_m`.  `none` only if the
averaging faulted (`nbr = 0`). -/
def calibrate (st : ScaleState) (f : Nat → Int) (nbr : Nat) :
    Option (ScaleState × ℚ) :=
  (getAverageValue f nbr).map fun v => (calibrateUpdate st v, (calibrateUpdate st v).m)

/-- The C library function `round`: nearest integer, ties away from zero,
on an exact rational. -/
def cround (x : ℚ) : Int :=
  if 0 ≤ x then ⌊x + 1 / 2⌋ else -⌊-x + 1 / 2⌋

/-- The weight HX711_GSR::getWeight computes from an averaged code `v`
(HX711_GSR.cpp 167-168):
`w = (double)_gramsRefWeight * (double)(v - _v0) / (double)(_vref - _v0);
w = round(10.0 * w) / 10.0;`. -/
def getWeightOfCode (st : ScaleState) (v : Int) : ℚ :=
  let w : ℚ := (st.gramsRefWeight : ℚ) * ((v - st.v0 : Int) : ℚ)
      / ((st.vref - st.v0 : Int) : ℚ)
  (cround (10 * w) : ℚ) / 10

/-- HX711_GSR::getWeight (HX711_GSR.cpp 164-170). -/
def getWeight (st : ScaleState) (f : Nat → Int) (nbr : Nat) : Option ℚ :=
  (getAverageValue f nbr).map (getWeightOfCode st)

/-- Modelled from the spec: rounding to one decimal place with
round-half-away-from-zero at the tenths digit (§4.3). -/
def roundHalfAwayTenths (w : ℚ) : ℚ :=
  (if 0 ≤ 10 * w then ((⌊10 * w + 1 / 2⌋ : Int) : ℚ)
   else ((⌈10 * w - 1 / 2⌉ : Int) : ℚ)) / 10

/-- Modelled from the spec: `weightFromCode(code) = refWeightGrams *
(code - zeroCode) / (refCode - zeroCode)`, rounded to one decimal place
(§4.3). -/
def weightFromCodeSpec (refWeightGrams zeroCode refCode code : Int) : ℚ :=
  roundHalfAwayTenths
    ((refWeightGrams : ℚ) * ((code : ℚ) - (zeroCode : ℚ))
      / ((refCode : ℚ) - (zeroCode : ℚ)))

/-- Helper: the C rounding of `getWeight` agrees with the spec's
round-half-away-from-zero. -/
theorem cround_eq_roundHalfAway (x : ℚ) :
    ((cround x : Int) : ℚ) = if 0 ≤ x then ((⌊x + 1 / 2⌋ : Int) : ℚ)
      else ((⌈x - 1 / 2⌉ : Int) : ℚ) := by
  unfold cround
  by_cases h : 0 ≤ x
  · rw [if_pos h, if_pos h]
  · rw [if_neg h, if_neg h, show x - 1 / 2 = -(-x + 1 / 2) by ring, Int.ceil_neg]

/-- Helper: the conversion getWeight applies to the averaged code equals the
spec's weightFromCode, for all states. -/
theorem getWeightOfCode_eq_spec (st : ScaleState) (v : Int) :
    getWeightOfCode st v = weightFromCodeSpec st.gramsRefWeight st.v0 st.vref v := by
  simp only [getWeightOfCode, weightFromCodeSpec, roundHalfAwayTenths]
  rw [cround_eq_roundHalfAway]
  have hw : (st.gramsRefWeight : ℚ) * ((v - st.v0 : Int) : ℚ)
        / ((st.vref - st.v0 : Int) : ℚ)
      = (st.gramsRefWeight : ℚ) * ((v : ℚ) - (st.v0 : ℚ))
        / ((st.vref : ℚ) - (st.v0 : ℚ)) := by
    push_cast
    ring
  rw [hw]

/-- C2: for every state with refCode distinct from zeroCode and every
averaged code v, getWeight returns
`refWeightGrams * (v - zeroCode) / (refCode - zeroCode)` rounded to one
decimal place with round-half-away-from-zero at the tenths digit; with
zeroCode 1000, refWeightGrams 500, refCode 3000, the code 2000 yields 250.0. -/
theorem getWeight_spec (st : ScaleState) (f : Nat → Int) (nbr : Nat) (v : Int)
    (hv : getAverageValue f nbr = some v) (hne : st.vref ≠ st.v0) :
    getWeight st f nbr
      = some (weightFromCodeSpec st.gramsRefWeight st.v0 st.vref v) ∧
    getWeightOfCode
      { initialState with v0 := 1000, vref := 3000, gramsRefWeight := 500 } 2000
      = 250 ∧
    weightFromCodeSpec 500 1000 3000 2000 = 250 := by
  refine ⟨?_, ?_, ?_⟩
  · unfold getWeight
    rw [hv, Option.map_some', getWeightOfCode_eq_spec]
  · simp only [getWeightOfCode, initialState]
    norm_num [cround]
  · simp only [weightFromCodeSpec, roundHalfAwayTenths]
    norm_num

/-- Witness for C2 at a concrete state and sample sequence. -/
theorem getWeight_spec_witness :
    getWeight { initialState with v0 := 1000, vref := 3000, gramsRefWeight := 500 }
        (fun _ => 2000) 1
      = some (weightFromCodeSpec 500 1000 3000 2000) ∧
    getWeightOfCode
      { initialState with v0 := 1000, vref := 3000, gramsRefWeight := 500 } 2000
      = 250 ∧
    weightFromCodeSpec 500 1000 3000 2000 = 250 :=
  getWeight_spec
    { initialState with v0 := 1000, vref := 3000, gramsRefWeight := 500 }
    (fun _ => 2000) 1 2000 (by decide) (by decide)

/-- C5 (amended): neither calibrate nor getWeight detects the condition
refCode = zeroCode.  When the averaged code equals the zero code, calibrate
completes normally (no error), overwrites the state, and computes the slope
and intercept by the divisions with the zero divisor; getWeight on the
resulting state likewise performs its division with the zero divisor and
returns normally. -/
theorem calibrate_getWeight_no_guard (st : ScaleState) (f : Nat → Int)
    (nbr : Nat) (h : getAverageValue f nbr = some st.v0) :
    calibrate st f nbr
      = some (calibrateUpdate st st.v0, (calibrateUpdate st st.v0).m) ∧
    (calibrateUpdate st st.v0).vref = (calibrateUpdate st st.v0).v0 ∧
    (calibrateUpdate st st.v0).m = (st.gramsRefWeight : ℚ) / ((0 : Int) : ℚ) ∧
    (calibrateUpdate st st.v0).b
      = -(st.gramsRefWeight : ℚ) * (st.v0 : ℚ) / ((0 : Int) : ℚ) ∧
    getWeight (calibrateUpdate st st.v0) f nbr
      = some ((cround (10 * ((st.gramsRefWeight : ℚ)
          * ((st.v0 - st.v0 : Int) : ℚ) / ((0 : Int) : ℚ))) : ℚ) / 10) := by
  have hsub : (st.v0 - st.v0 : Int) = 0 := by omega
  refine ⟨?_, rfl, ?_, ?_, ?_⟩
  · unfold calibrate
    rw [h, Option.map_some']
  · simp only [calibrateUpdate, hsub]
  · simp only [calibrateUpdate, hsub]
  · unfold getWeight
    rw [h, Option.map_some']
    simp only [getWeightOfCode, calibrateUpdate, hsub]

/-- Witness for the amended C5 at a concrete state whose averaged reference
reading equals the zero code. -/
theorem calibrate_getWeight_no_guard_witness :
    calibrate { initialState with v0 := 7, gramsRefWeight := 300 } (fun _ => 7) 1
      = some (calibrateUpdate { initialState with v0 := 7, gramsRefWeight := 300 } 7,
          (calibrateUpdate { initialState with v0 := 7, gramsRefWeight := 300 } 7).m) ∧
    (calibrateUpdate { initialState with v0 := 7, gramsRefWeight := 300 } 7).vref
      = (calibrateUpdate { initialState with v0 := 7, gramsRefWeight := 300 } 7).v0 ∧
    (calibrateUpdate { initialState with v0 := 7, gramsRefWeight := 300 } 7).m
      = ((300 : Int) : ℚ) / ((0 : Int) : ℚ) ∧
    (calibrateUpdate { initialState with v0 := 7, gramsRefWeight := 300 } 7).b
      = -((300 : Int) : ℚ) * ((7 : Int) : ℚ) / ((0 : Int) : ℚ) ∧
    getWeight (calibrateUpdate { initialState with v0 := 7, gramsRefWeight := 300 } 7)
        (fun _ => 7) 1
      = some ((cround (10 * (((300 : Int) : ℚ)
          * ((7 - 7 : Int) : ℚ) / ((0 : Int) : ℚ))) : ℚ) / 10) :=
  calibrate_getWeight_no_guard { initialState with v0 := 7, gramsRefWeight := 300 }
    (fun _ => 7) 1 (by decide)

/-- C5 counterexample: at a concrete state whose averaged reference reading
equals the captured zero code, calibrate reports no error at all — it
returns normally with the state overwritten by the unguarded
divide-by-zero results, and getWeight also returns normally. -/
theorem calibrate_guard_cex :
    calibrate { initialState with v0 := 5, gramsRefWeight := 500 }
        (fun _ => 5) 1
      = some ({ initialState with v0 := 5, gramsRefWeight := 500, vref := 5, m := 0, b := 0 }, 0) ∧
    getWeight { initialState with v0 := 5, gramsRefWeight := 500, vref := 5 }
        (fun _ => 5) 1
      = some 0 := by
  have h5 : getAverageValue (fun _ => 5) 1 = some 5 := by decide
  constructor
  · unfold calibrate
    rw [h5, Option.map_some']
    simp only [calibrateUpdate, initialState]
    norm_num
  · unfold getWeight
    rw [h5, Option.map_some']
    simp only [getWeightOfCode, initialState]
    norm_num [cround]

/-! ### Menu command layer (loadCell.cpp) -/

/-- The error reports (printed messages) of the sketch's calibrate command. -/
inductive CalibError where
  | noRefWeight
  | noZero
  | slopeTooLarge
deriving DecidableEq, Repr

/-- The sketch's enterRefWeight command (loadCell.cpp 101-119): the entered
value is checked against `[maxLoad/10, maxLoad]`; out of range, the command
prints a range error and returns without touching the scale, otherwise it
stores the value with `set_wref`.  `Except.error ()` abstracts the printed
range error. -/
def enterRefWeight (st : ScaleState) (refWeight : Int) :
    ScaleState × Except Unit Unit :=
  if refWeight < st.gramsMaxLoad.tdiv 10 ∨ refWeight > st.gramsMaxLoad then
    (st, Except.error ())
  else (set_wref st refWeight, Except.ok ())

/-- The sketch's calibrate command (loadCell.cpp 158-181): reject when the
reference weight is unset (`get_wref() < 0`) or the zero code is not
captured (`get_v0() == 0`); otherwise run `myScale.calibrate(16)` and then
the sanity check `fabs(myScale.get_m()) > 1.0`, which reports an error after
the calibration already ran. -/
def menuCalibrate (st : ScaleState) (f : Nat → Int) :
    ScaleState × Except CalibError ℚ :=
  if st.gramsRefWeight < 0 then (st, Except.error CalibError.noRefWeight)
  else if st.v0 = 0 then (st, Except.error CalibError.noZero)
  else
    match calibrate st f 16 with
    | some (st', m) =>
        if |st'.m| > 1 then (st', Except.error CalibError.slopeTooLarge)
        else (st', Except.ok m)
    | none => (st, Except.error CalibError.noZero)
    -- the none arm is unreachable: averaging 16 readings cannot fault

/-- C6: whenever the reference weight is unset (sentinel negative) or the
zero code has not been captured, the calibrate command fails with a
precondition error and returns the state unchanged (slope, intercept and
refCode untouched). -/
theorem menuCalibrate_precondition (st : ScaleState) (f : Nat → Int)
    (h : st.gramsRefWeight < 0 ∨ st.v0 = 0) :
    ∃ e, menuCalibrate st f = (st, Except.error e) ∧
      (e = CalibError.noRefWeight ∨ e = CalibError.noZero) := by
  unfold menuCalibrate
  by_cases hw : st.gramsRefWeight < 0
  · exact ⟨CalibError.noRefWeight, by rw [if_pos hw], Or.inl rfl⟩
  · have hz : st.v0 = 0 := by tauto
    exact ⟨CalibError.noZero, by rw [if_neg hw, if_pos hz], Or.inr rfl⟩

/-- Witness for C6: the freshly constructed scale (reference weight still
the sentinel -1) is rejected and left unchanged. -/
theorem menuCalibrate_precondition_witness :
    ∃ e, menuCalibrate initialState (fun _ => 0) = (initialState, Except.error e) ∧
      (e = CalibError.noRefWeight ∨ e = CalibError.noZero) :=
  menuCalibrate_precondition initialState (fun _ => 0) (Or.inl (by decide))

/-- C7: enterRefWeight accepts grams exactly when
`maxLoad/10 ≤ grams ≤ maxLoad` (C truncating division); any value outside
that range is reported as a range error and the state is unchanged. -/
theorem enterRefWeight_spec (st : ScaleState) (g : Int) :
    (st.gramsMaxLoad.tdiv 10 ≤ g ∧ g ≤ st.gramsMaxLoad →
      enterRefWeight st g = ({ st with gramsRefWeight := g }, Except.ok ())) ∧
    (g < st.gramsMaxLoad.tdiv 10 ∨ st.gramsMaxLoad < g →
      enterRefWeight st g = (st, Except.error ())) := by
  constructor
  · intro hg
    unfold enterRefWeight
    rw [if_neg (by push_neg; exact ⟨hg.1, hg.2⟩)]
    rfl
  · intro hg
    unfold enterRefWeight
    rw [if_pos hg]

/-- Witness for C7: with maxLoad 1000 the commands accept 100 and 1000 and
reject 99 and 1001. -/
theorem enterRefWeight_spec_witness :
    enterRefWeight initialState 100
      = ({ initialState with gramsRefWeight := 100 }, Except.ok ()) ∧
    enterRefWeight initialState 1000
      = ({ initialState with gramsRefWeight := 1000 }, Except.ok ()) ∧
    enterRefWeight initialState 99 = (initialState, Except.error ()) ∧
    enterRefWeight initialState 1001 = (initialState, Except.error ()) :=
  ⟨(enterRefWeight_spec initialState 100).1 (by decide),
   (enterRefWeight_spec initialState 1000).1 (by decide),
   (enterRefWeight_spec initialState 99).2 (by decide),
   (enterRefWeight_spec initialState 1001).2 (by decide)⟩

/-- C8: the slope and intercept computed inline by calibrate agree with the
ones computed by calculateCoefficients on the same reference values. -/
theorem coefficients_agree (st : ScaleState) (v : Int) (hne : v ≠ st.v0) :
    (calibrateUpdate st v).m = (calculateCoefficients { st with vref := v }).m ∧
    (calibrateUpdate st v).b = (calculateCoefficients { st with vref := v }).b := by
  constructor
  · rfl
  · simp only [calibrateUpdate, calculateCoefficients]
    ring

/-- Witness for C8 at concrete reference values. -/
theorem coefficients_agree_witness :
    (calibrateUpdate { initialState with v0 := 1000, gramsRefWeight := 500 } 3000).m
      = (calculateCoefficients
          { initialState with v0 := 1000, gramsRefWeight := 500, vref := 3000 }).m ∧
    (calibrateUpdate { initialState with v0 := 1000, gramsRefWeight := 500 } 3000).b
      = (calculateCoefficients
          { initialState with v0 := 1000, gramsRefWeight := 500, vref := 3000 }).b :=
  coefficients_agree { initialState with v0 := 1000, gramsRefWeight := 500 } 3000
    (by decide)

/-- C10: when the preconditions pass but the post-calibration sanity check
fires, the calibrate command reports an error even though the state was
already overwritten by calibrate(16): the returned state is the mutated one,
with refCode set to the fresh average and the slope recomputed. -/
theorem menuCalibrate_not_atomic (st : ScaleState) (f : Nat → Int)
    (hw : ¬st.gramsRefWeight < 0) (hz : ¬st.v0 = 0)
    (hm : |(calibrateUpdate st (avgValue f 16)).m| > 1) :
    menuCalibrate st f
      = (calibrateUpdate st (avgValue f 16),
          Except.error CalibError.slopeTooLarge) ∧
    (menuCalibrate st f).1.vref = avgValue f 16 ∧
    (menuCalibrate st f).1.m
      = (st.gramsRefWeight : ℚ) / ((avgValue f 16 - st.v0 : Int) : ℚ) := by
  have hc : calibrate st f 16
      = some (calibrateUpdate st (avgValue f 16),
          (calibrateUpdate st (avgValue f 16)).m) := by
    unfold calibrate
    rw [getAverageValue_eq_some f 16 (by omega), Option.map_some']
  have hmain : menuCalibrate st f
      = (calibrateUpdate st (avgValue f 16),
          Except.error CalibError.slopeTooLarge) := by
    unfold menuCalibrate
    rw [if_neg hw, if_neg hz, hc]
    dsimp only
    rw [if_pos hm]
  refine ⟨hmain, ?_, ?_⟩ <;> rw [hmain] <;> rfl

/-- Witness for C10: a concrete state whose sanity check fires; the error is
reported with refCode, slope and intercept already overwritten. -/
theorem menuCalibrate_not_atomic_witness :
    menuCalibrate { initialState with v0 := 1, gramsRefWeight := 1000 }
        (fun _ => 2)
      = (calibrateUpdate { initialState with v0 := 1, gramsRefWeight := 1000 }
            (avgValue (fun _ => 2) 16),
          Except.error CalibError.slopeTooLarge) ∧
    (menuCalibrate { initialState with v0 := 1, gramsRefWeight := 1000 }
        (fun _ => 2)).1.vref = avgValue (fun _ => 2) 16 ∧
    (menuCalibrate { initialState with v0 := 1, gramsRefWeight := 1000 }
        (fun _ => 2)).1.m
      = ((1000 : Int) : ℚ)
          / ((avgValue (fun _ => 2) 16 - (1 : Int) : Int) : ℚ) :=
  menuCalibrate_not_atomic { initialState with v0 := 1, gramsRefWeight := 1000 }
    (fun _ => 2) (by decide) (by decide)
    (by
      have ha : avgValue (fun _ => 2) 16 = 2 := by decide
      simp only [calibrateUpdate, ha, initialState]
      norm_num)

end LoadCell
